import Mathlib

/-!
Shallow embedding of `src/generate_icons.py`.

Modelling choices, kept as close to the source as the target logic allows:

* A PIL raster is an `Img`: a mode string, pixel dimensions and a pixel
  function; channel values are natural numbers (0..255 in a well-formed
  image).
* `Image.new`, `crop` and `paste` are translated directly.  Pasting with an
  RGBA mask is PIL's per-band blend through the mask's alpha band, using the
  exact MULDIV255 fixed-point arithmetic of `libImaging/Paste.c`.
* The LANCZOS resize of line 86 is not reproduced; it is a parameter `rs` of
  the pipeline, constrained only where a claim needs its output dimensions.
* Python floats are modelled by `ℚ`, and `int()` truncation by `pyInt`
  (truncation toward zero); every numeric instance the claims exercise is
  exact in both arithmetics (e.g. `60 * 1.2` rounds to exactly `72.0` as an
  IEEE double and equals `72` as a rational).
* Fallible library calls are driven by an oracle `Env`: the result of
  `Image.open` (line 65), whether `img.convert('RGBA')` (line 74) succeeds,
  and whether the body of the per-size `try` block (lines 81-114) raises for
  a given size.  `Outcome.raised` marks an exception escaping
  `generate_icons`; `Outcome.ok b` is its regular boolean return.
-/

/-- One RGBA pixel; channels are 0..255 in a well-formed image. -/
structure Pixel where
  r : ℕ
  g : ℕ
  b : ℕ
  a : ℕ
deriving DecidableEq

/-- The fully transparent black pixel `(0, 0, 0, 0)` of line 89. -/
def clearPx : Pixel := ⟨0, 0, 0, 0⟩

/-- A raster image: PIL mode, width, height, and the pixel grid. -/
structure Img where
  mode : String
  w : ℕ
  h : ℕ
  px : ℕ → ℕ → Pixel

/-- Model of `Image.new('RGBA', (w, h), c)` (line 89). -/
def Img.new (w h : ℕ) (c : Pixel) : Img := ⟨"RGBA", w, h, fun _ _ => c⟩

/-- Pixel lookup at signed coordinates, with PIL's zero fill outside the
raster (PIL pads `crop` boxes that leave the image with zeroes). -/
def Img.pixAt (i : Img) (x y : ℤ) : Pixel :=
  if 0 ≤ x ∧ x < i.w ∧ 0 ≤ y ∧ y < i.h then i.px x.toNat y.toNat else clearPx

/-- Model of `img.crop((l, t, r, b))` (lines 99-104). -/
def Img.crop (i : Img) (l t r b : ℤ) : Img :=
  ⟨i.mode, (r - l).toNat, (b - t).toNat, fun x y => i.pixAt (l + x) (t + y)⟩

/-- The MULDIV255 macro of PIL's `Paste.c`: rounded division of `a * b`
by 255, computed as `(t >> 8) + t >> 8` on `t = a * b + 128`. -/
def muldiv255 (a b : ℕ) : ℕ :=
  (((a * b + 128) >>> 8) + (a * b + 128)) >>> 8

/-- The BLEND macro of `Paste.c` for one channel under mask value `m`. -/
def blendChan (m d s : ℕ) : ℕ := muldiv255 d (255 - m) + muldiv255 s m

/-- Blend a source pixel over a destination pixel under mask value `m`;
PIL blends every band of an RGBA destination, the alpha band included. -/
def Pixel.blendP (m : ℕ) (d s : Pixel) : Pixel :=
  ⟨blendChan m d.r s.r, blendChan m d.g s.g, blendChan m d.b s.b, blendChan m d.a s.a⟩

/-- Model of `dst.paste(src, (px0, py0), mask)` with an RGBA `mask`
(line 109): PIL takes the mask's alpha band and blends every band of the
destination over the overlap of the two rasters. -/
def Img.paste (dst src : Img) (px0 py0 : ℤ) (mask : Img) : Img :=
  ⟨dst.mode, dst.w, dst.h, fun x y =>
    if px0 ≤ (x : ℤ) ∧ (x : ℤ) < px0 + src.w ∧ py0 ≤ (y : ℤ) ∧ (y : ℤ) < py0 + src.h then
      Pixel.blendP ((mask.px ((x : ℤ) - px0).toNat ((y : ℤ) - py0).toNat).a)
        (dst.px x y) (src.px ((x : ℤ) - px0).toNat ((y : ℤ) - py0).toNat)
    else dst.px x y⟩

/-- Python `int()` on a rational: truncation toward zero. -/
def pyInt (q : ℚ) : ℤ := if 0 ≤ q then ⌊q⌋ else ⌈q⌉

/-- Line 83: `content_size = int(size * scale_factor)`. -/
def contentSizeOf (size : ℕ) (sf : ℚ) : ℤ := pyInt ((size : ℚ) * sf)

/-- Line 98: `crop_margin = (content_size - size) // 2`
(Python `//` is floor division, `Int.fdiv`). -/
def cropMargin (size : ℕ) (sf : ℚ) : ℤ := (contentSizeOf size sf - size).fdiv 2

/-- The crop box `(margin, margin, margin + size, margin + size)` of
lines 99-104. -/
def cropBox (size : ℕ) (sf : ℚ) : ℤ × ℤ × ℤ × ℤ :=
  (cropMargin size sf, cropMargin size sf,
   cropMargin size sf + size, cropMargin size sf + size)

/-- Lines 92-93: `paste_x = (size - content_size) // 2` (floor division). -/
def pasteOffset (size : ℕ) (sf : ℚ) : ℤ :=
  ((size : ℤ) - contentSizeOf size sf).fdiv 2

/-- The data path of the per-size `try` block (lines 83-109) for one entry:
resize to the scaled content size, center-crop when the content exceeds the
canvas (resetting the paste offset to 0), and paste onto the transparent
canvas using the content as its own mask.  `rs` stands for the LANCZOS
resize of line 86. -/
def renderEntry (rs : Img → ℕ → ℕ → Img) (img : Img) (size : ℕ) (sf : ℚ) : Img :=
  let contentSize := contentSizeOf size sf
  let scaled := rs img contentSize.toNat contentSize.toNat
  let final := Img.new size size clearPx
  if (size : ℤ) < contentSize then
    let m := cropMargin size sf
    let cropped := scaled.crop m m (m + size) (m + size)
    final.paste cropped 0 0 cropped
  else
    final.paste scaled (pasteOffset size sf) (pasteOffset size sf) scaled

/-- The `UNIQUE_SIZES` table (lines 38-52), in source order, which is the
iteration order of `UNIQUE_SIZES.items()` (Python dicts preserve insertion
order). -/
def UNIQUE_SIZES : List (ℕ × Option String) :=
  [(20, none),
   (29, some ("writing shed iPhone Settings.png")),
   (40, some ("writing shed spotlight.png")),
   (58, some ("writing shed settings 2.png")),
   (60, some ("writing shed spotlight 3.png")),
   (76, some ("writing shed iPad.png")),
   (80, some ("writing shed spolight 2.png")),
   (87, some ("writing shed settings 3.png")),
   (120, some ("writing shed iphone 2.png")),
   (152, some ("writing shed ipad 2.png")),
   (167, some ("writing shed iPad Pro 2.png")),
   (180, some ("writing shed iphone 3.png")),
   (1024, some ("writing shed 1024.png"))]

/-- How a call to `generate_icons` ends: a regular boolean return, or an
exception escaping the function. -/
inductive Outcome
  | ok : Bool → Outcome
  | raised : String → Outcome
deriving DecidableEq

/-- Observable effects of one run: the outcome, the files written (name,
format, raster) in write order, and the sizes whose `try` block was
entered, in order. -/
structure GenResult where
  outcome : Outcome
  files : List (String × String × Img)
  attempted : List ℕ

/-- Oracle for the fallible library calls: the result of `Image.open`
(`none` = raises, caught on line 68), whether `img.convert('RGBA')` on
line 74 succeeds, and whether the per-size `try` body raises for a given
size (`some msg` = raises, caught on line 116). -/
structure Env where
  openResult : Option Img
  convertOk : Bool
  renderErr : ℕ → Option String

/-- The `for size, filename in UNIQUE_SIZES.items()` loop of lines 77-118:
absent filenames are skipped (`continue`), a raising entry prints and
returns `False` at once, a successful entry records its file write. -/
def iconLoop (env : Env) (rs : Img → ℕ → ℕ → Img) (img : Img) (sf : ℚ) :
    List (ℕ × Option String) → GenResult
  | [] => ⟨Outcome.ok true, [], []⟩
  | (_, none) :: rest => iconLoop env rs img sf rest
  | (size, some fn) :: rest =>
    match env.renderErr size with
    | some _ => ⟨Outcome.ok false, [], [size]⟩
    | none =>
      let r := iconLoop env rs img sf rest
      ⟨r.outcome, (fn, "PNG", renderEntry rs img size sf) :: r.files, size :: r.attempted⟩

/-- Model of `generate_icons` (lines 54-120).  A failing `Image.open` is
caught and returns `False`; the `img.convert('RGBA')` call on line 74 sits
outside every `try`, so its failure escapes as an exception. -/
def generate_icons (env : Env) (rs : Img → ℕ → ℕ → Img)
    (table : List (ℕ × Option String)) (sf : ℚ) : GenResult :=
  match env.openResult with
  | none => ⟨Outcome.ok false, [], []⟩
  | some img0 =>
    if img0.mode = "RGBA" then iconLoop env rs img0 sf table
    else if env.convertOk then iconLoop env rs { img0 with mode := "RGBA" } sf table
    else ⟨Outcome.raised ("convert"), [], []⟩

/-- Which of the two hardcoded paths exist when the script starts. -/
structure World where
  sourceExists : Bool
  outputExists : Bool

/-- The `__main__` block (lines 122-139): existence checks on the two fixed
paths, then the renderer with the default `scale_factor` of 1.2;  the first
component is the process exit code, the second the files written. -/
def mainRun (w : World) (env : Env) (rs : Img → ℕ → ℕ → Img) :
    ℤ × List (String × String × Img) :=
  if w.sourceExists = false then (1, [])
  else if w.outputExists = false then (1, [])
  else
    match generate_icons env rs UNIQUE_SIZES (1.2 : ℚ) with
    | ⟨Outcome.ok true, fs, _⟩ => (0, fs)
    | ⟨Outcome.ok false, fs, _⟩ => (1, fs)
    | ⟨Outcome.raised _, fs, _⟩ => (1, fs)

/-- Sizes of the entries whose filename is present, in table order. -/
def presentSizes (t : List (ℕ × Option String)) : List ℕ :=
  t.filterMap fun p => if p.2.isSome then some p.1 else none

/-- Filenames of the entries whose filename is present, in table order. -/
def presentNames (t : List (ℕ × Option String)) : List String :=
  t.filterMap Prod.snd

/-- The file writes a fully successful pass over `t` produces. -/
def writesOf (rs : Img → ℕ → ℕ → Img) (img : Img) (sf : ℚ)
    (t : List (ℕ × Option String)) : List (String × String × Img) :=
  t.filterMap fun p => p.2.map fun fn => (fn, "PNG", renderEntry rs img p.1 sf)

/-- Channel bounds of a well-formed 8-bit pixel. -/
def Pixel.wf (p : Pixel) : Prop := p.r ≤ 255 ∧ p.g ≤ 255 ∧ p.b ≤ 255 ∧ p.a ≤ 255

/-- Pixel-for-pixel agreement of two rasters: same dimensions and the same
pixel at every in-bounds coordinate. -/
def Img.eqOn (i j : Img) : Prop :=
  i.w = j.w ∧ i.h = j.h ∧ ∀ x y, x < i.w → y < i.h → i.px x y = j.px x y

/-! ### Basic lemmas about the embedded operations -/

theorem muldiv255_zero (d : ℕ) : muldiv255 d 0 = 0 := by
  simp [muldiv255]

set_option maxRecDepth 4000 in
theorem muldiv255_full (s : ℕ) (h : s ≤ 255) : muldiv255 s 255 = s := by
  revert h
  revert s
  decide

theorem blendChan_full (d s : ℕ) (h : s ≤ 255) : blendChan 255 d s = s := by
  simp [blendChan, muldiv255_zero, muldiv255_full s h]

theorem blendP_full (d s : Pixel) (h : s.wf) : Pixel.blendP 255 d s = s := by
  obtain ⟨h1, h2, h3, h4⟩ := h
  simp [Pixel.blendP, blendChan_full _ _ h1, blendChan_full _ _ h2,
    blendChan_full _ _ h3, blendChan_full _ _ h4]

theorem renderEntry_w (rs : Img → ℕ → ℕ → Img) (img : Img) (size : ℕ) (sf : ℚ) :
    (renderEntry rs img size sf).w = size := by
  simp only [renderEntry]
  split <;> rfl

theorem renderEntry_h (rs : Img → ℕ → ℕ → Img) (img : Img) (size : ℕ) (sf : ℚ) :
    (renderEntry rs img size sf).h = size := by
  simp only [renderEntry]
  split <;> rfl

/-! ### Lemmas about the loop -/

theorem iconLoop_cons_none (env : Env) (rs : Img → ℕ → ℕ → Img) (img : Img) (sf : ℚ)
    (s : ℕ) (rest : List (ℕ × Option String)) :
    iconLoop env rs img sf ((s, none) :: rest) = iconLoop env rs img sf rest := rfl

theorem iconLoop_cons_err (env : Env) (rs : Img → ℕ → ℕ → Img) (img : Img) (sf : ℚ)
    (s : ℕ) (fn e : String) (rest : List (ℕ × Option String))
    (h : env.renderErr s = some e) :
    iconLoop env rs img sf ((s, some fn) :: rest) = ⟨Outcome.ok false, [], [s]⟩ := by
  simp only [iconLoop]
  rw [h]

theorem iconLoop_cons_ok (env : Env) (rs : Img → ℕ → ℕ → Img) (img : Img) (sf : ℚ)
    (s : ℕ) (fn : String) (rest : List (ℕ × Option String))
    (h : env.renderErr s = none) :
    iconLoop env rs img sf ((s, some fn) :: rest) =
      ⟨(iconLoop env rs img sf rest).outcome,
       (fn, "PNG", renderEntry rs img s sf) :: (iconLoop env rs img sf rest).files,
       s :: (iconLoop env rs img sf rest).attempted⟩ := by
  simp only [iconLoop]
  rw [h]

theorem presentSizes_cons_none (s : ℕ) (t : List (ℕ × Option String)) :
    presentSizes ((s, none) :: t) = presentSizes t := rfl

theorem presentSizes_cons_some (s : ℕ) (fn : String) (t : List (ℕ × Option String)) :
    presentSizes ((s, some fn) :: t) = s :: presentSizes t := rfl

theorem presentNames_cons_none (s : ℕ) (t : List (ℕ × Option String)) :
    presentNames ((s, none) :: t) = presentNames t := rfl

theorem presentNames_cons_some (s : ℕ) (fn : String) (t : List (ℕ × Option String)) :
    presentNames ((s, some fn) :: t) = fn :: presentNames t := rfl

theorem writesOf_cons_none (rs : Img → ℕ → ℕ → Img) (img : Img) (sf : ℚ)
    (s : ℕ) (t : List (ℕ × Option String)) :
    writesOf rs img sf ((s, none) :: t) = writesOf rs img sf t := rfl

theorem writesOf_cons_some (rs : Img → ℕ → ℕ → Img) (img : Img) (sf : ℚ)
    (s : ℕ) (fn : String) (t : List (ℕ × Option String)) :
    writesOf rs img sf ((s, some fn) :: t) =
      (fn, "PNG", renderEntry rs img s sf) :: writesOf rs img sf t := rfl

theorem mem_writesOf (rs : Img → ℕ → ℕ → Img) (img : Img) (sf : ℚ)
    (s : ℕ) (fn : String) (t : List (ℕ × Option String)) (h : (s, some fn) ∈ t) :
    (fn, "PNG", renderEntry rs img s sf) ∈ writesOf rs img sf t :=
  List.mem_filterMap.mpr ⟨(s, some fn), h, rfl⟩

theorem writesOf_names (rs : Img → ℕ → ℕ → Img) (img : Img) (sf : ℚ) :
    ∀ t, (writesOf rs img sf t).map (fun f => f.1) = presentNames t := by
  intro t
  induction t with
  | nil => rfl
  | cons p rest ih =>
    obtain ⟨s, f⟩ := p
    cases f with
    | none => rw [writesOf_cons_none, presentNames_cons_none]; exact ih
    | some fn =>
      rw [writesOf_cons_some, presentNames_cons_some, List.map_cons, ih]

theorem iconLoop_outcome_ok (env : Env) (rs : Img → ℕ → ℕ → Img) (img : Img) (sf : ℚ) :
    ∀ t, ∃ b, (iconLoop env rs img sf t).outcome = Outcome.ok b := by
  intro t
  induction t with
  | nil => exact ⟨true, rfl⟩
  | cons p rest ih =>
    obtain ⟨s, f⟩ := p
    cases f with
    | none => rw [iconLoop_cons_none]; exact ih
    | some fn =>
      cases h : env.renderErr s with
      | some e => rw [iconLoop_cons_err env rs img sf s fn e rest h]; exact ⟨false, rfl⟩
      | none =>
        rw [iconLoop_cons_ok env rs img sf s fn rest h]
        exact ih

theorem iconLoop_ok_files (env : Env) (rs : Img → ℕ → ℕ → Img) (img : Img) (sf : ℚ) :
    ∀ t, (iconLoop env rs img sf t).outcome = Outcome.ok true →
      (iconLoop env rs img sf t).files = writesOf rs img sf t := by
  intro t
  induction t with
  | nil => intro _; rfl
  | cons p rest ih =>
    obtain ⟨s, f⟩ := p
    cases f with
    | none =>
      rw [iconLoop_cons_none, writesOf_cons_none]
      exact ih
    | some fn =>
      cases h : env.renderErr s with
      | some e =>
        rw [iconLoop_cons_err env rs img sf s fn e rest h]
        intro hc
        exact absurd (Outcome.ok.injEq false true ▸ hc) (by simp)
      | none =>
        rw [iconLoop_cons_ok env rs img sf s fn rest h, writesOf_cons_some]
        intro hc
        rw [ih hc]

theorem iconLoop_append_allok (env : Env) (rs : Img → ℕ → ℕ → Img) (img : Img) (sf : ℚ)
    (t2 : List (ℕ × Option String)) :
    ∀ t1, (∀ s ∈ presentSizes t1, env.renderErr s = none) →
      iconLoop env rs img sf (t1 ++ t2) =
        ⟨(iconLoop env rs img sf t2).outcome,
         writesOf rs img sf t1 ++ (iconLoop env rs img sf t2).files,
         presentSizes t1 ++ (iconLoop env rs img sf t2).attempted⟩ := by
  intro t1
  induction t1 with
  | nil => intro _; rfl
  | cons p rest ih =>
    obtain ⟨s, f⟩ := p
    cases f with
    | none =>
      intro h
      rw [List.cons_append, iconLoop_cons_none, writesOf_cons_none, presentSizes_cons_none]
      exact ih h
    | some fn =>
      intro h
      have hs : env.renderErr s = none := h s (by rw [presentSizes_cons_some]; exact List.mem_cons_self s _)
      have hrest : ∀ s' ∈ presentSizes rest, env.renderErr s' = none := by
        intro s' hs'
        exact h s' (by rw [presentSizes_cons_some]; exact List.mem_cons_of_mem s hs')
      rw [List.cons_append, iconLoop_cons_ok env rs img sf s fn (rest ++ t2) hs,
        ih hrest, writesOf_cons_some, presentSizes_cons_some]
      rfl

theorem generate_icons_eq_open_none (env : Env) (rs : Img → ℕ → ℕ → Img)
    (t : List (ℕ × Option String)) (sf : ℚ) (hop : env.openResult = none) :
    generate_icons env rs t sf = ⟨Outcome.ok false, [], []⟩ := by
  unfold generate_icons
  rw [hop]

theorem generate_icons_eq_open_some (env : Env) (rs : Img → ℕ → ℕ → Img)
    (t : List (ℕ × Option String)) (sf : ℚ) (img0 : Img)
    (hop : env.openResult = some img0) :
    generate_icons env rs t sf =
      if img0.mode = "RGBA" then iconLoop env rs img0 sf t
      else if env.convertOk then iconLoop env rs { img0 with mode := "RGBA" } sf t
      else ⟨Outcome.raised ("convert"), [], []⟩ := by
  unfold generate_icons
  rw [hop]

theorem generate_icons_okTrue_as_loop (env : Env) (rs : Img → ℕ → ℕ → Img)
    (t : List (ℕ × Option String)) (sf : ℚ)
    (h : (generate_icons env rs t sf).outcome = Outcome.ok true) :
    ∃ img, generate_icons env rs t sf = iconLoop env rs img sf t := by
  cases hop : env.openResult with
  | none =>
    rw [generate_icons_eq_open_none env rs t sf hop] at h
    exact absurd h (by simp)
  | some img0 =>
    rw [generate_icons_eq_open_some env rs t sf img0 hop] at h ⊢
    by_cases hm : img0.mode = "RGBA"
    · rw [if_pos hm] at h ⊢
      exact ⟨img0, rfl⟩
    · rw [if_neg hm] at h ⊢
      by_cases hcv : env.convertOk = true
      · rw [if_pos hcv] at h ⊢
        exact ⟨{ img0 with mode := "RGBA" }, rfl⟩
      · rw [if_neg hcv] at h
        exact absurd h (by simp)

theorem generate_icons_as_loop_of_convertible (env : Env) (rs : Img → ℕ → ℕ → Img)
    (t : List (ℕ × Option String)) (sf : ℚ) (img0 : Img)
    (hop : env.openResult = some img0)
    (hcv : img0.mode = "RGBA" ∨ env.convertOk = true) :
    ∃ img, generate_icons env rs t sf = iconLoop env rs img sf t := by
  rw [generate_icons_eq_open_some env rs t sf img0 hop]
  by_cases hm : img0.mode = "RGBA"
  · rw [if_pos hm]
    exact ⟨img0, rfl⟩
  · rcases hcv with hc | hc
    · exact absurd hc hm
    · rw [if_neg hm, if_pos hc]
      exact ⟨{ img0 with mode := "RGBA" }, rfl⟩

theorem iconLoop_skip_entry (env : Env) (rs : Img → ℕ → ℕ → Img) (img : Img) (sf : ℚ)
    (s : ℕ) (t2 : List (ℕ × Option String)) :
    ∀ t1, iconLoop env rs img sf (t1 ++ (s, none) :: t2) = iconLoop env rs img sf (t1 ++ t2) := by
  intro t1
  induction t1 with
  | nil => exact iconLoop_cons_none env rs img sf s t2
  | cons p rest ih =>
    obtain ⟨s', f⟩ := p
    cases f with
    | none =>
      rw [List.cons_append, List.cons_append, iconLoop_cons_none, iconLoop_cons_none]
      exact ih
    | some fn =>
      cases h : env.renderErr s' with
      | some e =>
        rw [List.cons_append, List.cons_append,
          iconLoop_cons_err env rs img sf s' fn e (rest ++ (s, none) :: t2) h,
          iconLoop_cons_err env rs img sf s' fn e (rest ++ t2) h]
      | none =>
        rw [List.cons_append, List.cons_append,
          iconLoop_cons_ok env rs img sf s' fn (rest ++ (s, none) :: t2) h,
          iconLoop_cons_ok env rs img sf s' fn (rest ++ t2) h, ih]

theorem iconLoop_fail_at (env : Env) (rs : Img → ℕ → ℕ → Img) (img : Img) (sf : ℚ)
    (t1 t2 : List (ℕ × Option String)) (s : ℕ) (f e : String)
    (hpre : ∀ s' ∈ presentSizes t1, env.renderErr s' = none)
    (herr : env.renderErr s = some e) :
    iconLoop env rs img sf (t1 ++ (s, some f) :: t2) =
      ⟨Outcome.ok false, writesOf rs img sf t1, presentSizes t1 ++ [s]⟩ := by
  rw [iconLoop_append_allok env rs img sf ((s, some f) :: t2) t1 hpre,
    iconLoop_cons_err env rs img sf s f e t2 herr, List.append_nil]

/-! ### Concrete fixtures for closed instances -/

/-- A resize returning a constant raster of the requested dimensions; it
stands in for LANCZOS where only output dimensions matter, and agrees with
LANCZOS on constant sources (resampling a constant image reproduces the
constant). -/
def rsConst (c : Pixel) : Img → ℕ → ℕ → Img :=
  fun _ w h => ⟨"RGBA", w, h, fun _ _ => c⟩

/-- A small opaque RGBA source image. -/
def imgOpaque : Img := ⟨"RGBA", 8, 8, fun _ _ => ⟨5, 6, 7, 255⟩⟩

/-- An environment in which every library call succeeds. -/
def envAllOk : Env := ⟨some imgOpaque, true, fun _ => none⟩

/-- An environment whose source opens in a non-RGBA mode and whose RGBA
conversion raises (as with a truncated file PIL decodes lazily: `open`
succeeds, the decode forced by `convert` fails). -/
def envBadConvert : Env :=
  ⟨some ⟨"RGB", 8, 8, fun _ _ => ⟨5, 6, 7, 255⟩⟩, false, fun _ => none⟩

/-- An environment in which rendering size 60 raises and all else succeeds. -/
def envFail60 : Env :=
  ⟨some imgOpaque, true, fun s => if s = 60 then some ("boom") else none⟩

/-! ### The claims -/

/-- C1: for every entry `(size, filename)` of the size table with a present
filename, a run of `generate_icons` that returns success writes a file with
exactly that filename, in PNG format, whose raster is exactly
`size × size` — it is the `size × size` RGBA canvas of line 89 that is
saved. -/
theorem generate_icons_writes_every_present_entry (env : Env)
    (rs : Img → ℕ → ℕ → Img) (sf : ℚ)
    (hok : (generate_icons env rs UNIQUE_SIZES sf).outcome = Outcome.ok true) :
    ∀ size fn, (size, some fn) ∈ UNIQUE_SIZES →
      ∃ i : Img, (fn, "PNG", i) ∈ (generate_icons env rs UNIQUE_SIZES sf).files ∧
        i.w = size ∧ i.h = size := by
  obtain ⟨img, heq⟩ := generate_icons_okTrue_as_loop env rs UNIQUE_SIZES sf hok
  rw [heq] at hok ⊢
  intro size fn hmem
  refine ⟨renderEntry rs img size sf, ?_, renderEntry_w rs img size sf,
    renderEntry_h rs img size sf⟩
  rw [iconLoop_ok_files env rs img sf UNIQUE_SIZES hok]
  exact mem_writesOf rs img sf size fn UNIQUE_SIZES hmem

/-- Witness for C1: a concrete fully successful run contains a 60 × 60 PNG
write named exactly as the table's entry for size 60. -/
theorem generate_icons_writes_every_present_entry_witness :
    (generate_icons envAllOk (rsConst ⟨5, 6, 7, 255⟩) UNIQUE_SIZES (1.2 : ℚ)).outcome =
      Outcome.ok true ∧
    (60, some ("writing shed spotlight 3.png")) ∈ UNIQUE_SIZES ∧
    ∃ i : Img, ("writing shed spotlight 3.png", "PNG", i) ∈
        (generate_icons envAllOk (rsConst ⟨5, 6, 7, 255⟩) UNIQUE_SIZES (1.2 : ℚ)).files ∧
      i.w = 60 ∧ i.h = 60 :=
  ⟨rfl, by decide,
    generate_icons_writes_every_present_entry envAllOk (rsConst ⟨5, 6, 7, 255⟩) (1.2 : ℚ)
      rfl 60 ("writing shed spotlight 3.png") (by decide)⟩

/-- C6: an entry with an absent filename produces no output file and does
not halt the run: the whole run behaves exactly as if the entry were not in
the table. -/
theorem generate_icons_skips_absent_filename (env : Env) (rs : Img → ℕ → ℕ → Img)
    (sf : ℚ) (s : ℕ) (t1 t2 : List (ℕ × Option String)) :
    generate_icons env rs (t1 ++ (s, none) :: t2) sf = generate_icons env rs (t1 ++ t2) sf := by
  cases hop : env.openResult with
  | none =>
    rw [generate_icons_eq_open_none env rs (t1 ++ (s, none) :: t2) sf hop,
      generate_icons_eq_open_none env rs (t1 ++ t2) sf hop]
  | some img0 =>
    rw [generate_icons_eq_open_some env rs (t1 ++ (s, none) :: t2) sf img0 hop,
      generate_icons_eq_open_some env rs (t1 ++ t2) sf img0 hop]
    by_cases hm : img0.mode = "RGBA"
    · rw [if_pos hm, if_pos hm, iconLoop_skip_entry]
    · rw [if_neg hm, if_neg hm]
      by_cases hcv : env.convertOk = true
      · rw [if_pos hcv, if_pos hcv, iconLoop_skip_entry]
      · rw [if_neg hcv, if_neg hcv]

/-- C7: when the configured source path does not exist, the process exits
with status 1 before the renderer runs, and nothing is written. -/
theorem mainRun_source_missing (w : World) (env : Env) (rs : Img → ℕ → ℕ → Img)
    (h : w.sourceExists = false) :
    mainRun w env rs = (1, []) := by
  unfold mainRun
  rw [h]
  rfl

/-- Witness for C7: the concrete world with a missing source exits 1 with no
writes. -/
theorem mainRun_source_missing_witness :
    (⟨false, true⟩ : World).sourceExists = false ∧
    mainRun ⟨false, true⟩ envAllOk (rsConst ⟨5, 6, 7, 255⟩) = (1, []) :=
  ⟨rfl, mainRun_source_missing ⟨false, true⟩ envAllOk (rsConst ⟨5, 6, 7, 255⟩) rfl⟩

/-- C9: in the table actually iterated, all present filenames are pairwise
distinct and every key is positive, so no write of a successful run is
overwritten by a later one: a fully successful run writes exactly 12
distinct files. -/
theorem UNIQUE_SIZES_run_writes_twelve_distinct_files (env : Env)
    (rs : Img → ℕ → ℕ → Img) (sf : ℚ)
    (hok : (generate_icons env rs UNIQUE_SIZES sf).outcome = Outcome.ok true) :
    (presentNames UNIQUE_SIZES).Nodup ∧
    (∀ p ∈ UNIQUE_SIZES, 0 < p.1) ∧
    ((generate_icons env rs UNIQUE_SIZES sf).files.map fun f => f.1) =
      presentNames UNIQUE_SIZES ∧
    (generate_icons env rs UNIQUE_SIZES sf).files.length = 12 ∧
    ((generate_icons env rs UNIQUE_SIZES sf).files.map fun f => f.1).Nodup := by
  obtain ⟨img, heq⟩ := generate_icons_okTrue_as_loop env rs UNIQUE_SIZES sf hok
  rw [heq] at hok ⊢
  rw [iconLoop_ok_files env rs img sf UNIQUE_SIZES hok]
  have hnames := writesOf_names rs img sf UNIQUE_SIZES
  have hlen : (writesOf rs img sf UNIQUE_SIZES).length = 12 := by
    rw [← List.length_map (writesOf rs img sf UNIQUE_SIZES) (fun f => f.1), hnames]
    decide
  rw [hnames]
  exact ⟨by decide, by decide, rfl, hlen, by decide⟩

/-- Witness for C9: a concrete fully successful run. -/
theorem UNIQUE_SIZES_run_writes_twelve_distinct_files_witness :
    (generate_icons envAllOk (rsConst ⟨5, 6, 7, 255⟩) UNIQUE_SIZES (1.2 : ℚ)).outcome =
      Outcome.ok true ∧
    (generate_icons envAllOk (rsConst ⟨5, 6, 7, 255⟩) UNIQUE_SIZES (1.2 : ℚ)).files.length = 12 :=
  ⟨rfl, (UNIQUE_SIZES_run_writes_twelve_distinct_files envAllOk (rsConst ⟨5, 6, 7, 255⟩)
    (1.2 : ℚ) rfl).2.2.2.1⟩

/-- C4: if the environment makes the render of some present entry raise
while every present entry before it succeeds, the run stops at the failing
entry: its outcome is `False`, the sizes attempted are exactly the earlier
present ones plus the failing one (nothing after it is processed), only the
earlier entries' files are written, and the process exits non-zero. -/
theorem generate_icons_fail_fast (w : World) (env : Env) (rs : Img → ℕ → ℕ → Img)
    (sf : ℚ) (img0 : Img) (t1 t2 : List (ℕ × Option String)) (s : ℕ) (f e : String)
    (htab : UNIQUE_SIZES = t1 ++ (s, some f) :: t2)
    (hpre : ∀ s' ∈ presentSizes t1, env.renderErr s' = none)
    (herr : env.renderErr s = some e)
    (hop : env.openResult = some img0)
    (hcv : img0.mode = "RGBA" ∨ env.convertOk = true)
    (hw1 : w.sourceExists = true) (hw2 : w.outputExists = true) :
    (generate_icons env rs UNIQUE_SIZES sf).outcome = Outcome.ok false ∧
    (generate_icons env rs UNIQUE_SIZES sf).attempted = presentSizes t1 ++ [s] ∧
    ((generate_icons env rs UNIQUE_SIZES sf).files.map fun p => p.1) = presentNames t1 ∧
    (mainRun w env rs).1 = 1 := by
  obtain ⟨img, heq⟩ := generate_icons_as_loop_of_convertible env rs UNIQUE_SIZES sf img0 hop hcv
  obtain ⟨img2, heq2⟩ :=
    generate_icons_as_loop_of_convertible env rs UNIQUE_SIZES (1.2 : ℚ) img0 hop hcv
  have hloop : generate_icons env rs UNIQUE_SIZES sf =
      ⟨Outcome.ok false, writesOf rs img sf t1, presentSizes t1 ++ [s]⟩ := by
    rw [heq, htab, iconLoop_fail_at env rs img sf t1 t2 s f e hpre herr]
  have hloop2 : generate_icons env rs UNIQUE_SIZES (1.2 : ℚ) =
      ⟨Outcome.ok false, writesOf rs img2 (1.2 : ℚ) t1, presentSizes t1 ++ [s]⟩ := by
    rw [heq2, htab, iconLoop_fail_at env rs img2 (1.2 : ℚ) t1 t2 s f e hpre herr]
  refine ⟨by rw [hloop], by rw [hloop], ?_, ?_⟩
  · rw [hloop]
    exact writesOf_names rs img sf t1
  · unfold mainRun
    rw [hw1, hw2, hloop2]
    rfl

/-- Witness for C4: rendering fails at size 60 after the present entries
29, 40, 58 succeeded; exactly those sizes plus 60 were attempted and the
process exits 1. -/
theorem generate_icons_fail_fast_witness :
    UNIQUE_SIZES =
      [(20, none), (29, some ("writing shed iPhone Settings.png")),
       (40, some ("writing shed spotlight.png")), (58, some ("writing shed settings 2.png"))] ++
      (60, some ("writing shed spotlight 3.png")) ::
      [(76, some ("writing shed iPad.png")), (80, some ("writing shed spolight 2.png")),
       (87, some ("writing shed settings 3.png")), (120, some ("writing shed iphone 2.png")),
       (152, some ("writing shed ipad 2.png")), (167, some ("writing shed iPad Pro 2.png")),
       (180, some ("writing shed iphone 3.png")), (1024, some ("writing shed 1024.png"))] ∧
    (generate_icons envFail60 (rsConst ⟨5, 6, 7, 255⟩) UNIQUE_SIZES (1.2 : ℚ)).outcome =
      Outcome.ok false ∧
    (generate_icons envFail60 (rsConst ⟨5, 6, 7, 255⟩) UNIQUE_SIZES (1.2 : ℚ)).attempted =
      [29, 40, 58] ++ [60] ∧
    (mainRun ⟨true, true⟩ envFail60 (rsConst ⟨5, 6, 7, 255⟩)).1 = 1 := by
  have h := generate_icons_fail_fast ⟨true, true⟩ envFail60 (rsConst ⟨5, 6, 7, 255⟩)
    (1.2 : ℚ) imgOpaque
    [(20, none), (29, some ("writing shed iPhone Settings.png")),
     (40, some ("writing shed spotlight.png")), (58, some ("writing shed settings 2.png"))]
    [(76, some ("writing shed iPad.png")), (80, some ("writing shed spolight 2.png")),
     (87, some ("writing shed settings 3.png")), (120, some ("writing shed iphone 2.png")),
     (152, some ("writing shed ipad 2.png")), (167, some ("writing shed iPad Pro 2.png")),
     (180, some ("writing shed iphone 3.png")), (1024, some ("writing shed 1024.png"))]
    60 ("writing shed spotlight 3.png") ("boom") (by decide) (by decide) (by decide)
    rfl (Or.inl rfl) rfl rfl
  exact ⟨by decide, h.1, h.2.1, h.2.2.2⟩

/-- C5 (amended): whenever the source either opens already in RGBA mode or
the RGBA conversion succeeds, `generate_icons` returns a boolean for every
input — every error in opening and in the per-size loop is caught where it
occurs and turned into a `False` return. -/
theorem generate_icons_returns_bool_when_convert_succeeds (env : Env)
    (rs : Img → ℕ → ℕ → Img) (t : List (ℕ × Option String)) (sf : ℚ)
    (h : ∀ img0, env.openResult = some img0 → img0.mode = "RGBA" ∨ env.convertOk = true) :
    ∃ b, (generate_icons env rs t sf).outcome = Outcome.ok b := by
  cases hop : env.openResult with
  | none => exact ⟨false, by rw [generate_icons_eq_open_none env rs t sf hop]⟩
  | some img0 =>
    obtain ⟨img, heq⟩ :=
      generate_icons_as_loop_of_convertible env rs t sf img0 hop (h img0 hop)
    rw [heq]
    exact iconLoop_outcome_ok env rs img sf t

/-- Counterexample to C5 as stated: when the source opens in a non-RGBA mode
and the conversion of line 74 raises (e.g. a truncated file whose decode is
forced by `convert`), the exception escapes `generate_icons` instead of
being turned into a boolean return — line 74 sits outside every `try`. -/
theorem generate_icons_convert_error_escapes :
    (generate_icons envBadConvert (rsConst ⟨5, 6, 7, 255⟩) UNIQUE_SIZES (1.2 : ℚ)).outcome =
      Outcome.raised ("convert") ∧
    (generate_icons envBadConvert (rsConst ⟨5, 6, 7, 255⟩) UNIQUE_SIZES (1.2 : ℚ)).outcome ≠
      Outcome.ok true ∧
    (generate_icons envBadConvert (rsConst ⟨5, 6, 7, 255⟩) UNIQUE_SIZES (1.2 : ℚ)).outcome ≠
      Outcome.ok false := by
  refine ⟨rfl, ?_, ?_⟩ <;> decide

/-- Witness for C5 (amended): a concrete environment whose source opens in
RGBA mode. -/
theorem generate_icons_returns_bool_when_convert_succeeds_witness :
    (∀ img0, envAllOk.openResult = some img0 → img0.mode = "RGBA" ∨ envAllOk.convertOk = true) ∧
    ∃ b, (generate_icons envAllOk (rsConst ⟨5, 6, 7, 255⟩) UNIQUE_SIZES (1.2 : ℚ)).outcome =
      Outcome.ok b :=
  ⟨fun _ _ => Or.inr rfl,
    generate_icons_returns_bool_when_convert_succeeds envAllOk (rsConst ⟨5, 6, 7, 255⟩)
      UNIQUE_SIZES (1.2 : ℚ) (fun _ _ => Or.inr rfl)⟩

/-- Counterexample to C2 as stated: at `size = 1` and
`scale_factor = 1.2 > 1`, `content_size = int(1 * 1.2) = 1` is not strictly
greater than the size, so the crop branch of line 96 is not taken. -/
theorem contentSize_not_gt_at_size_one :
    0 < (1 : ℕ) ∧ (1 : ℚ) < (1.2 : ℚ) ∧
    contentSizeOf 1 (1.2 : ℚ) = 1 ∧ ¬ ((1 : ℤ) < contentSizeOf 1 (1.2 : ℚ)) := by
  have h : contentSizeOf 1 (1.2 : ℚ) = 1 := by
    norm_num [contentSizeOf, pyInt]
  refine ⟨one_pos, by norm_num, h, ?_⟩
  rw [h]
  omega

/-- C2 (amended): for every positive size and every scale factor above 1 the
computed content size is at least the size, and it is strictly greater —
so the crop branch is taken — exactly when `size * scaleFactor` reaches
`size + 1`; this holds in particular for every present entry of the actual
table at the default factor 1.2. -/
theorem contentSize_ge_size_of_scale_gt_one (size : ℕ) (sf : ℚ)
    (h1 : 1 ≤ size) (h2 : 1 < sf) :
    (size : ℤ) ≤ contentSizeOf size sf ∧
    ((size : ℚ) + 1 ≤ (size : ℚ) * sf → (size : ℤ) < contentSizeOf size sf) := by
  have hs : (1 : ℚ) ≤ (size : ℚ) := by exact_mod_cast h1
  have hq : (0 : ℚ) ≤ (size : ℚ) * sf := by nlinarith
  unfold contentSizeOf pyInt
  rw [if_pos hq]
  constructor
  · refine Int.le_floor.mpr ?_
    push_cast
    nlinarith
  · intro h3
    have h4 : (size : ℤ) + 1 ≤ ⌊(size : ℚ) * sf⌋ := by
      refine Int.le_floor.mpr ?_
      push_cast
      linarith
    omega

/-- Witness for C2 (amended): at the table entry of size 60 with the default
factor, `60 * 1.2 = 72 ≥ 61`, hence the crop branch condition holds. -/
theorem contentSize_ge_size_of_scale_gt_one_witness :
    1 ≤ (60 : ℕ) ∧ (1 : ℚ) < (1.2 : ℚ) ∧ ((60 : ℚ) + 1 ≤ (60 : ℚ) * (1.2 : ℚ)) ∧
    (60 : ℤ) < contentSizeOf 60 (1.2 : ℚ) :=
  ⟨by decide, by norm_num, by norm_num,
    (contentSize_ge_size_of_scale_gt_one 60 (1.2 : ℚ) (by decide) (by norm_num)).2
      (by norm_num)⟩

/-- C3: at `size = 60` and `scale_factor = 1.2` the content size is 72, the
crop margin is 6, the crop box is exactly `(6, 6, 66, 66)`, and the render
of that entry is literally the 72 × 72 resize cropped with that box, pasted
at the origin of the 60 × 60 transparent canvas. -/
theorem crop_box_at_60 :
    contentSizeOf 60 (1.2 : ℚ) = 72 ∧
    cropMargin 60 (1.2 : ℚ) = 6 ∧
    cropBox 60 (1.2 : ℚ) = (6, 6, 66, 66) ∧
    ∀ (rs : Img → ℕ → ℕ → Img) (img : Img),
      renderEntry rs img 60 (1.2 : ℚ) =
        (Img.new 60 60 clearPx).paste ((rs img 72 72).crop 6 6 66 66) 0 0
          ((rs img 72 72).crop 6 6 66 66) := by
  have hc : contentSizeOf 60 (1.2 : ℚ) = 72 := by
    norm_num [contentSizeOf, pyInt]
  have hm : cropMargin 60 (1.2 : ℚ) = 6 := by
    rw [cropMargin, hc]
    decide
  refine ⟨hc, hm, ?_, ?_⟩
  · rw [cropBox, hm]
    decide
  · intro rs img
    simp only [renderEntry, hc, hm]
    rw [if_pos (by norm_num : ((60 : ℕ) : ℤ) < 72)]
    norm_num
    rfl

/-- A fully transparent source raster whose colour channels are nonzero;
LANCZOS resampling reproduces a constant raster, so `rsConst` models the
resize of line 86 on it exactly. -/
def imgGhost : Img := ⟨"RGBA", 8, 8, fun _ _ => ⟨10, 20, 30, 0⟩⟩

theorem contentSizeOf_one (size : ℕ) : contentSizeOf size 1 = (size : ℤ) := by
  simp [contentSizeOf, pyInt]

theorem pasteOffset_one (size : ℕ) : pasteOffset size 1 = 0 := by
  simp [pasteOffset, contentSizeOf_one, Int.zero_fdiv]

theorem renderEntry_unit_scale_eq (rs : Img → ℕ → ℕ → Img) (img : Img) (size : ℕ) :
    renderEntry rs img size 1 =
      (Img.new size size clearPx).paste (rs img size size) 0 0 (rs img size size) := by
  simp only [renderEntry, contentSizeOf_one, pasteOffset_one, Int.toNat_natCast]
  rw [if_neg (lt_irrefl _)]

theorem renderEntry_unit_scale_px (rs : Img → ℕ → ℕ → Img) (img : Img) (size : ℕ)
    (hw : (rs img size size).w = size) (hh : (rs img size size).h = size)
    (x y : ℕ) (hx : x < size) (hy : y < size) :
    (renderEntry rs img size 1).px x y =
      Pixel.blendP ((rs img size size).px x y).a clearPx ((rs img size size).px x y) := by
  rw [renderEntry_unit_scale_eq]
  simp only [Img.paste]
  rw [if_pos ?hc]
  case hc =>
    refine ⟨by positivity, ?_, by positivity, ?_⟩
    · rw [hw]
      omega
    · rw [hh]
      omega
  simp [Img.new]

/-- C8 (amended): at scale factor exactly 1.0 the saved raster agrees with
the source resized to `size × size` at every pixel where that resized source
is fully opaque; when it is opaque everywhere, the output is pixel-for-pixel
the resized source and carries no transparent border (alpha is 255
everywhere).  At pixels the resized source leaves transparent, the paste
through its own alpha mask keeps the canvas's transparent black instead. -/
theorem renderEntry_unit_scale_identity (rs : Img → ℕ → ℕ → Img) (img : Img) (size : ℕ)
    (hw : (rs img size size).w = size) (hh : (rs img size size).h = size)
    (hwf : ∀ x y, x < size → y < size → ((rs img size size).px x y).wf)
    (hop : ∀ x y, x < size → y < size → ((rs img size size).px x y).a = 255) :
    Img.eqOn (renderEntry rs img size 1) (rs img size size) ∧
    ∀ x y, x < size → y < size → ((renderEntry rs img size 1).px x y).a = 255 := by
  have hpx : ∀ x y, x < size → y < size →
      (renderEntry rs img size 1).px x y = (rs img size size).px x y := by
    intro x y hx hy
    rw [renderEntry_unit_scale_px rs img size hw hh x y hx hy, hop x y hx hy,
      blendP_full _ _ (hwf x y hx hy)]
  refine ⟨⟨?_, ?_, ?_⟩, ?_⟩
  · rw [renderEntry_w, hw]
  · rw [renderEntry_h, hh]
  · intro x y hx hy
    exact hpx x y (by rwa [renderEntry_w] at hx) (by rwa [renderEntry_h] at hy)
  · intro x y hx hy
    rw [hpx x y hx hy]
    exact hop x y hx hy

/-- Witness for C8 (amended): a concrete opaque resized source is
reproduced pixel-for-pixel. -/
theorem renderEntry_unit_scale_identity_witness :
    (rsConst ⟨5, 6, 7, 255⟩ imgOpaque 2 2).w = 2 ∧
    (rsConst ⟨5, 6, 7, 255⟩ imgOpaque 2 2).h = 2 ∧
    (∀ x y, x < 2 → y < 2 → ((rsConst ⟨5, 6, 7, 255⟩ imgOpaque 2 2).px x y).wf) ∧
    (∀ x y, x < 2 → y < 2 → ((rsConst ⟨5, 6, 7, 255⟩ imgOpaque 2 2).px x y).a = 255) ∧
    Img.eqOn (renderEntry (rsConst ⟨5, 6, 7, 255⟩) imgOpaque 2 1)
      (rsConst ⟨5, 6, 7, 255⟩ imgOpaque 2 2) := by
  refine ⟨rfl, rfl, ?_, ?_, ?_⟩
  · intro x y _ _
    exact (⟨by decide, by decide, by decide, by decide⟩ : Pixel.wf ⟨5, 6, 7, 255⟩)
  · intro x y _ _
    rfl
  · exact (renderEntry_unit_scale_identity (rsConst ⟨5, 6, 7, 255⟩) imgOpaque 2 rfl rfl
      (fun x y _ _ => (⟨by decide, by decide, by decide, by decide⟩ : Pixel.wf ⟨5, 6, 7, 255⟩))
      (fun x y _ _ => rfl)).1

/-- Counterexample to C8 as stated: take a fully transparent source whose
colour channels are nonzero (LANCZOS reproduces the constant raster, modelled
by `rsConst`).  Pasting the resized content through its own zero alpha mask
keeps the canvas's transparent black pixel, so the saved raster is not
pixel-for-pixel the resized source even at `scaleFactor = 1.0`. -/
theorem renderEntry_unit_scale_not_identity :
    ¬ Img.eqOn (renderEntry (rsConst ⟨10, 20, 30, 0⟩) imgGhost 60 1)
        (rsConst ⟨10, 20, 30, 0⟩ imgGhost 60 60) := by
  intro h
  have h00 := h.2.2 0 0 (by rw [renderEntry_w]; decide) (by rw [renderEntry_h]; decide)
  rw [renderEntry_unit_scale_px (rsConst ⟨10, 20, 30, 0⟩) imgGhost 60 rfl rfl 0 0
    (by decide) (by decide)] at h00
  exact absurd h00 (by decide)

/-- C10: whenever the computed content size is at most the target size (and
the resize honours its requested dimensions), the crop branch is not taken:
the resized content is pasted at offset `((size - contentSize) // 2, same)`
onto the transparent canvas, every pixel outside the pasted region is the
fully transparent black of the canvas — so a content size strictly below the
target leaves a transparent border pixel at the bottom-right corner — and
the output raster is still exactly `size × size`. -/
theorem renderEntry_paste_centred_when_no_crop (rs : Img → ℕ → ℕ → Img) (img : Img)
    (size : ℕ) (sf : ℚ) (hpos : 0 < size)
    (h0 : 0 ≤ contentSizeOf size sf)
    (hle : contentSizeOf size sf ≤ (size : ℤ))
    (hrw : (rs img (contentSizeOf size sf).toNat (contentSizeOf size sf).toNat).w =
      (contentSizeOf size sf).toNat)
    (hrh : (rs img (contentSizeOf size sf).toNat (contentSizeOf size sf).toNat).h =
      (contentSizeOf size sf).toNat) :
    renderEntry rs img size sf =
      (Img.new size size clearPx).paste
        (rs img (contentSizeOf size sf).toNat (contentSizeOf size sf).toNat)
        (pasteOffset size sf) (pasteOffset size sf)
        (rs img (contentSizeOf size sf).toNat (contentSizeOf size sf).toNat) ∧
    (renderEntry rs img size sf).w = size ∧ (renderEntry rs img size sf).h = size ∧
    (∀ x y : ℕ,
      ((x : ℤ) < pasteOffset size sf ∨
       pasteOffset size sf + contentSizeOf size sf ≤ (x : ℤ) ∨
       (y : ℤ) < pasteOffset size sf ∨
       pasteOffset size sf + contentSizeOf size sf ≤ (y : ℤ)) →
      (renderEntry rs img size sf).px x y = clearPx) ∧
    (contentSizeOf size sf < (size : ℤ) →
      (renderEntry rs img size sf).px (size - 1) (size - 1) = clearPx) := by
  have hbr : renderEntry rs img size sf =
      (Img.new size size clearPx).paste
        (rs img (contentSizeOf size sf).toNat (contentSizeOf size sf).toNat)
        (pasteOffset size sf) (pasteOffset size sf)
        (rs img (contentSizeOf size sf).toNat (contentSizeOf size sf).toNat) := by
    simp only [renderEntry]
    rw [if_neg (not_lt.mpr hle)]
  have hcast : ((contentSizeOf size sf).toNat : ℤ) = contentSizeOf size sf :=
    Int.toNat_of_nonneg h0
  have hout : ∀ x y : ℕ,
      ((x : ℤ) < pasteOffset size sf ∨
       pasteOffset size sf + contentSizeOf size sf ≤ (x : ℤ) ∨
       (y : ℤ) < pasteOffset size sf ∨
       pasteOffset size sf + contentSizeOf size sf ≤ (y : ℤ)) →
      (renderEntry rs img size sf).px x y = clearPx := by
    intro x y hxy
    rw [hbr]
    simp only [Img.paste]
    rw [if_neg ?hreg]
    case hreg =>
      rintro ⟨ha, hb, hc, hd⟩
      rw [hrw, hcast] at hb
      rw [hrh, hcast] at hd
      rcases hxy with h | h | h | h <;> omega
    rfl
  refine ⟨hbr, renderEntry_w rs img size sf, renderEntry_h rs img size sf, hout, ?_⟩
  intro hlt
  apply hout
  right; left
  have hfd : pasteOffset size sf = ((size : ℤ) - contentSizeOf size sf) / 2 :=
    Int.fdiv_eq_ediv _ (by norm_num)
  have hc1 : ((size - 1 : ℕ) : ℤ) = (size : ℤ) - 1 := by omega
  rw [hfd, hc1]
  omega

/-- Witness for C10: at size 60 and scale factor 0.5 the content size is 30,
and the bottom-right corner of the output is fully transparent. -/
theorem renderEntry_paste_centred_when_no_crop_witness :
    0 < (60 : ℕ) ∧ 0 ≤ contentSizeOf 60 ((1 : ℚ)/2) ∧
    contentSizeOf 60 ((1 : ℚ)/2) ≤ (60 : ℤ) ∧
    contentSizeOf 60 ((1 : ℚ)/2) < (60 : ℤ) ∧
    (renderEntry (rsConst ⟨5, 6, 7, 255⟩) imgOpaque 60 ((1 : ℚ)/2)).px (60 - 1) (60 - 1) =
      clearPx := by
  have hc : contentSizeOf 60 ((1 : ℚ)/2) = 30 := by
    norm_num [contentSizeOf, pyInt]
  refine ⟨by decide, by rw [hc]; decide, by rw [hc]; decide, by rw [hc]; decide, ?_⟩
  exact (renderEntry_paste_centred_when_no_crop (rsConst ⟨5, 6, 7, 255⟩) imgOpaque 60
    ((1 : ℚ)/2) (by decide) (by rw [hc]; decide) (by rw [hc]; decide) rfl rfl).2.2.2.2
    (by rw [hc]; decide)
